import Mathlib
/-!
Verification development for the CNtube retrieval-augmented grammar
analysis pipeline.

Shallow embedding of the core functions of
`services/grammar_rag_analysis.py`, `services/transcriber.py` and
`grammar_analysis/build_index_verbose.py`.  Python strings are modelled
as `List Char`; the text-generation and embedding backends are modelled
as explicit parameters (a response `Option (List Char)` for the
corrector, a distance assignment `Doc → Int` for the vector index);
fallible code returns `Option`/`Except`.
-/

/-! ## Definitions -/

/-- Model of Python's `'一' <= char <= '鿿'` test used in
`transcriber.correct_transcript` (CJK Unified Ideographs range). -/
def isChineseChar (c : Char) : Bool :=
  decide (0x4e00 ≤ c.toNat) && decide (c.toNat ≤ 0x9fff)

/-- Model of Python `str.strip()`: remove leading and trailing whitespace. -/
def trimChars (l : List Char) : List Char :=
  ((l.dropWhile Char.isWhitespace).reverse.dropWhile Char.isWhitespace).reverse

/-- A Python string is "falsy after strip" exactly when all its characters
are whitespace; models `if not text.strip()`. -/
def isBlank (l : List Char) : Bool :=
  l.all Char.isWhitespace

/-- From `transcriber.correct_transcript`:
`chinese_chars = sum(1 for char in text if '一' <= char <= '鿿')`. -/
def countChinese (l : List Char) : Nat :=
  (l.filter isChineseChar).length

/-- From `transcriber.correct_transcript`:
`total_chars = len([c for c in text if c.strip() and not c.isspace()])`
(for a single character both conjuncts say: not whitespace). -/
def countNonSpace (l : List Char) : Nat :=
  (l.filter (fun c => !c.isWhitespace)).length

/-- The artifact markers stripped from the head of the backend response:
`prefixes_to_remove = ["Output:", "output:", "Result:", "Corrected:", "corrected:"]`. -/
def leadMarks : List (List Char) :=
  ["Output:".toList, "output:".toList, "Result:".toList,
   "Corrected:".toList, "corrected:".toList]

/-- The cleanup loop of `correct_transcript`: for each marker in order, if the
content starts with it, drop it and strip; first the response itself is
stripped (`content = resp[...].strip()`). -/
def cleanResp (resp : List Char) : List Char :=
  leadMarks.foldl
    (fun acc p => if p.isPrefixOf acc then trimChars (acc.drop p.length) else acc)
    (trimChars resp)

/-- Computes `|a - b|` on naturals via the integer difference. -/
def natDist (a b : Nat) : Nat :=
  ((a : Int) - (b : Int)).natAbs

/-- Model of `transcriber.correct_transcript(text, prev_text, next_text)`.

The generation backend is modelled by `backend`: `some resp` means the
chat call returned `resp`, `none` means it raised (the `except` branch).
The returned `Bool` records whether the generation-backend call branch
was reached.  The script-ratio gate `(chinese_chars / total_chars) < 0.1`
is modelled by the exact rational comparison `10 * chinese < total`,
equivalent to the Python float comparison for any string that fits in
memory.  The anomaly check `abs(len(content) - len(text)) > len(text) * 0.5`
is modelled by the exact comparison `2 * |content.length - text.length| >
text.length` (Python's `n * 0.5` is exact for any feasible `n`). -/
def correct_transcript (text prev_text next_text : List Char)
    (backend : Option (List Char)) : List Char × Bool :=
  if isBlank text then (text, false)
  else
    let chinese := countChinese text
    let total := countNonSpace text
    if 0 < total ∧ 10 * chinese < total then (text, false)
    else
      match backend with
      | none => (text, true)
      | some resp =>
        let content := cleanResp resp
        if text.length < 2 * natDist content.length text.length then (text, true)
        else (content, true)

/-- A parsed grammar document: `Document(page_content=clean_text, metadata)`
where the metadata is `\x7b"level": level\x7d` when a level was found and
empty otherwise, i.e. `level` here models `metadata.get('level')`. -/
structure Doc where
  text : List Char
  level : Option Int
deriving DecidableEq, Repr

/-- Model of Python `content.split('//')` (split on each non-overlapping
occurrence of the two-character separator, left to right); `acc` holds the
reversed current chunk. -/
def splitSlashesAux : List Char → List Char → List (List Char)
  | [], acc => [acc.reverse]
  | '/' :: '/' :: rest, acc => acc.reverse :: splitSlashesAux rest []
  | c :: rest, acc => splitSlashesAux rest (c :: acc)

/-- Python `content.split('//')`. -/
def splitSlashes (l : List Char) : List (List Char) :=
  splitSlashesAux l []

/-- Model of `re.sub(r'\n+', ' ', chunk)`: every maximal run of newline
characters becomes one space; `prevNL` records whether the previous
character was a newline. -/
def collapseNLAux : Bool → List Char → List Char
  | _, [] => []
  | prevNL, c :: rest =>
    if c = '\n' then
      if prevNL then collapseNLAux true rest
      else ' ' :: collapseNLAux true rest
    else c :: collapseNLAux false rest

/-- Python `re.sub(r'\n+', ' ', chunk)`. -/
def collapseNL (l : List Char) : List Char :=
  collapseNLAux false l

/-- Python `int()` on a list of ASCII digits (the captured group of `\d+`). -/
def digitsToNat (ds : List Char) : Nat :=
  ds.foldl (fun n c => 10 * n + (c.toNat - 48)) 0

/-- Try to match the alternation `(基礎|進階)` at the head of the list,
returning the remainder on success. -/
def matchTier : List Char → Option (List Char)
  | '基' :: '礎' :: rest => some rest
  | '進' :: '階' :: rest => some rest
  | _ => none

/-- Try to match the whole pattern `(基礎|進階)\s+第(\d+)\*?級` at the head of
the list, returning the value of the captured digit group on success.  The
greedy `\s+` and `\d+` are deterministic here because `第` is not whitespace
and neither `*` nor `級` is a digit, so maximal munch is exact.  (`\s` is
modelled by `Char.isWhitespace` and `\d` by `Char.isDigit`; the corpus
markers use ASCII digits.) -/
def matchMarkAt (l : List Char) : Option Nat :=
  match matchTier l with
  | none => none
  | some r1 =>
    if r1.takeWhile Char.isWhitespace = [] then none
    else
      match r1.dropWhile Char.isWhitespace with
      | '第' :: r3 =>
        if r3.takeWhile Char.isDigit = [] then none
        else
          match r3.dropWhile Char.isDigit with
          | '*' :: '級' :: _ => some (digitsToNat (r3.takeWhile Char.isDigit))
          | '級' :: _ => some (digitsToNat (r3.takeWhile Char.isDigit))
          | _ => none
      | _ => none

/-- Model of `level_pattern.search(chunk)` followed by `int(match.group(2))`:
try the pattern at each start position from the left, returning the captured
number of the leftmost match.  (Python's `int()` never fails on the `\d+`
capture, so the `except ValueError` branch of the source is unreachable.) -/
def findLevelAux : List Char → Option Nat
  | [] => none
  | c :: rest =>
    match matchMarkAt (c :: rest) with
    | some n => some n
    | none => findLevelAux rest

/-- The whole `level_pattern.search` over a chunk. -/
def findLevel (l : List Char) : Option Nat :=
  findLevelAux l

/-- The per-chunk body of the loop in `load_and_process_documents`:
strip; skip if empty; extract the level; collapse newline runs and strip;
keep the document if the cleaned text is non-empty. -/
def processChunk (chunk : List Char) : Option Doc :=
  let c := trimChars chunk
  if c = [] then none
  else
    let level : Option Int := (findLevel c).map Int.ofNat
    let cleanText := trimChars (collapseNL c)
    if cleanText = [] then none
    else some ⟨cleanText, level⟩

/-- The body of `load_and_process_documents` after the file has been read:
split the corpus on `//` and process each chunk. -/
def parseCorpusContent (content : List Char) : List Doc :=
  (splitSlashes content).filterMap processChunk

/-- The predicate `IsMark m n` says the string `m` is exactly one instance of the regular
expression `(基礎|進階)\s+第(\d+)\*?級` whose captured digit group has the
numeric value `n`. -/
def IsMark (m : List Char) (n : Nat) : Prop :=
  ∃ tier ws ds star : List Char,
    (tier = "基礎".toList ∨ tier = "進階".toList) ∧
    ws ≠ [] ∧ (∀ c ∈ ws, c.isWhitespace = true) ∧
    ds ≠ [] ∧ (∀ c ∈ ds, c.isDigit = true) ∧
    (star = ([] : List Char) ∨ star = ['*']) ∧
    m = tier ++ ws ++ '第' :: (ds ++ star ++ ['級']) ∧
    n = digitsToNat ds

/-- The predicate `ContainsMarkVal l n`: some substring of `l` matches the level-marker
pattern with captured value `n` (what `re.search` succeeding means). -/
def ContainsMarkVal (l : List Char) (n : Nat) : Prop :=
  ∃ pre m post : List Char, l = pre ++ m ++ post ∧ IsMark m n

/-- The inner `index.search` of the FAISS store (the store is modelled by
the ordered list of documents it holds, and the embedder and fixed query by
a distance assignment `dist`; FAISS ranks by ascending L2 distance): rank
all entries by ascending distance and keep the first `n`. -/
def faissSearchScored (dist : Doc → Int) (idx : List Doc) (n : Nat) :
    List (Doc × Int) :=
  ((idx.map (fun d => (d, dist d))).insertionSort (fun a b => a.2 ≤ b.2)).take n

instance decRelSndLe : DecidableRel (fun (a b : Doc × Int) => a.2 ≤ b.2) :=
  fun a b => Int.decLe a.2 b.2

instance : IsTotal (Doc × Int) (fun a b => a.2 ≤ b.2) :=
  ⟨fun a b => Int.le_total a.2 b.2⟩

instance : IsTrans (Doc × Int) (fun a b => a.2 ≤ b.2) :=
  ⟨fun _ _ _ hab hbc => Int.le_trans hab hbc⟩

/-- The langchain method `FAISS.similarity_search(query, k, filter=...)`
(`similarity_search_with_score_by_vector`): with a metadata filter the
inner index is asked for `fetch_k` candidates (default `20`), each
candidate is kept iff `doc.metadata.get('level') == level`, and the
filtered list is truncated to `k` (`docs[:k]`); without a filter the inner
index is asked for `k` directly. -/
def similarity_search (dist : Doc → Int) (idx : List Doc) (k : Nat)
    (filterLevel : Option Int) : List Doc :=
  match filterLevel with
  | none => (faissSearchScored dist idx k).map (fun e => e.1)
  | some lv =>
    (((faissSearchScored dist idx 20).filter
        (fun e => decide (e.1.level = some lv))).take k).map (fun e => e.1)

/-- The closure `retrieve_with_filter` in `get_rag_chain`:
`vectorstore.similarity_search(query, k=5, filter=\x7b'level': level\x7d)`. -/
def retrieve_with_filter (dist : Doc → Int) (idx : List Doc) (level : Int) :
    List Doc :=
  similarity_search dist idx 5 (some level)

/-- A 21-document index: 20 level-2 documents nearer to the query than the
single level-1 document. -/
def exIdx : List Doc :=
  ((List.range 20).map (fun i => Doc.mk [Char.ofNat (65 + i)] (some 2))) ++
    [Doc.mk ['U'] (some 1)]

/-- Distance of each `exIdx` document to the fixed query. -/
def exDist : Doc → Int :=
  fun d =>
    match d.text with
    | [c] => (c.toNat : Int)
    | _ => 1000

/-- The slices `docs[i : i + batch_size]` for `i in range(0, total, batch_size)`
(faithful to Python slicing for any `batch_size ≥ 1`). -/
def chunked (bs : Nat) : List Doc → List (List Doc)
  | [] => []
  | d :: rest => ((d :: rest).take bs) :: chunked bs (rest.drop (bs - 1))
termination_by l => l.length
decreasing_by
  simp only [List.length_drop, List.length_cons]
  omega

/-- The call `FAISS.from_documents(documents, embeddings)`: holds exactly the given
documents in insertion order; raises (modelled as `none`) on an empty list
(it indexes the first embedding unconditionally). -/
def fromDocumentsOpt (docs : List Doc) : Option (List Doc) :=
  if docs = [] then none else some docs

/-- The batch loop of `build_verbose`: `vectorstore` starts as `None`; the
first batch goes through `FAISS.from_documents`, later batches through
`vectorstore.add_documents` (append). -/
def buildLoop : Option (List Doc) → List (List Doc) → Option (List Doc)
  | vs, [] => vs
  | none, b :: rest => buildLoop (some b) rest
  | some v, b :: rest => buildLoop (some (v ++ b)) rest

/-- The index content produced by `build_verbose` with batch size `bs`
(the source uses `batch_size = 10`). -/
def build_verbose (bs : Nat) (docs : List Doc) : Option (List Doc) :=
  buildLoop none (chunked bs docs)

/-- A small concrete document list for exercising the batched build. -/
def exDocsSmall : List Doc :=
  [⟨"我是學生。".toList, some 1⟩, ⟨"他喜歡跑步。".toList, none⟩,
   ⟨"雖然…但是…".toList, some 3⟩]

/-- The fatal build errors of `build_vector_store`: `FileNotFoundError`
from `load_and_process_documents` and the `ValueError` raised when no
documents were loaded. -/
inductive BuildErr where
  | fileNotFound
  | noDocuments
deriving DecidableEq, Repr

/-- The function `load_and_process_documents(file_path)`: raises `FileNotFoundError`
when the corpus file is missing (`corpus = none`), otherwise parses the
file's content. -/
def load_and_process_documents (corpus : Option (List Char)) :
    Except BuildErr (List Doc) :=
  match corpus with
  | none => Except.error BuildErr.fileNotFound
  | some content => Except.ok (parseCorpusContent content)

/-- The filesystem/backend environment `build_vector_store` runs against:
whether the persisted index path exists, what loading it yields (`none`
models `FAISS.load_local` raising), the corpus file content (`none` models
a missing file), and whether `save_local` succeeds. -/
structure BuildEnv where
  indexExists : Bool
  loadResult : Option (List Doc)
  corpus : Option (List Char)
  saveOk : Bool

/-- What `build_vector_store` hands back: the store contents, whether it
was rebuilt from the corpus (vs loaded from disk), and whether the
returned store is persisted on disk. -/
structure BuildOutcome where
  store : List Doc
  rebuilt : Bool
  saved : Bool
deriving DecidableEq, Repr

/-- The rebuild path of `build_vector_store`: parse the corpus (propagating
`FileNotFoundError`), raise `ValueError` if no documents were loaded,
build the store with `FAISS.from_documents`, then try `save_local`,
logging but swallowing any save error and returning the store anyway. -/
def buildFresh (env : BuildEnv) : Except BuildErr BuildOutcome :=
  match load_and_process_documents env.corpus with
  | Except.error e => Except.error e
  | Except.ok docs =>
    if docs = [] then Except.error BuildErr.noDocuments
    else Except.ok ⟨docs, true, env.saveOk⟩

/-- The function `build_vector_store`: if the persisted index path exists, try to load
it and return it on success; on a load exception log a warning and fall
through to a full rebuild from the corpus. -/
def build_vector_store (env : BuildEnv) : Except BuildErr BuildOutcome :=
  if env.indexExists then
    match env.loadResult with
    | some vs => Except.ok ⟨vs, false, true⟩
    | none => buildFresh env
  else buildFresh env

/-- A one-block corpus whose parse yields one document. -/
def exCorpus : List Char :=
  "基礎 第1級 我是學生。".toList

/-- The chain handle built on a cache miss; it closes over the vector
store built from the grammar file path passed to the call that built
it. -/
structure RagChain where
  sourcePath : List Char
deriving DecidableEq, Repr

/-- The function `get_rag_chain(grammar_file_path)` acting on the module-global
`_CACHED_CHAIN` slot: if the slot is filled, return the cached chain and
leave the slot unchanged; otherwise build the chain from the given path,
store it in the slot, and return it.  The `Bool` records whether
construction was performed. -/
def get_rag_chain (cached : Option RagChain) (path : List Char) :
    RagChain × Option RagChain × Bool :=
  match cached with
  | some c => (c, some c, false)
  | none => (⟨path⟩, some ⟨path⟩, true)

/-- A sequence of `get_rag_chain` calls threading the global slot,
recording each call's returned chain and its construction flag. -/
def runCalls (st : Option RagChain) : List (List Char) → List (RagChain × Bool)
  | [] => []
  | p :: rest =>
    ((get_rag_chain st p).1, (get_rag_chain st p).2.2) ::
      runCalls (get_rag_chain st p).2.1 rest

/-- JSON values as `json.loads` produces them (objects as key/value
lists). -/
inductive JVal where
  | s (v : String)
  | b (v : Bool)
  | i (v : Int)
  | o (fields : List (String × JVal))
  | null

/-- Python `dict` lookup: first binding of the key, if any. -/
def dictGet (fs : List (String × JVal)) (key : String) : Option JVal :=
  (fs.find? (fun f => f.1 == key)).map (fun f => f.2)

/-- Python `dict.get(key, default)`. -/
def getD (fs : List (String × JVal)) (key : String) (dflt : JVal) : JVal :=
  (dictGet fs key).getD dflt

/-- Calling `.get` on a value requires it to be a dict; anything else
raises `AttributeError` (modelled as `none` by the caller). -/
def asObj : JVal → Option (List (String × JVal))
  | JVal.o fs => some fs
  | _ => none

/-- The fields `analyze_grammar_point` extracts from the parsed response
(step 4, "Construct Final Formatted String"). -/
structure Extracted where
  translation : JVal
  found : JVal
  level : JVal
  point : JVal
  explanation : JVal
  add_point : JVal
  add_exp : JVal

/-- The key lookups of `analyze_grammar_point` lines 296–306:
`data.get("translation", "")`, `matched = data.get("matched_grammar", ...)`,
`matched.get("found", False)`, `matched.get("level", user_level)`,
`matched.get("point", "Unknown")`, `matched.get("explanation", "")`,
`additional = data.get("additional_info", ...)`, `additional.get("point", "")`,
`additional.get("explanation", "")` (the `...` defaults are empty dicts).
`none` models the uncaught `AttributeError` when
`matched_grammar`/`additional_info` is present but not an object. -/
def extractFields (data : List (String × JVal)) (user_level : Int) :
    Option Extracted :=
  match asObj (getD data "matched_grammar" (JVal.o [])) with
  | none => none
  | some matched =>
    match asObj (getD data "additional_info" (JVal.o [])) with
    | none => none
    | some additional =>
      some { translation := getD data "translation" (JVal.s ""),
             found := getD matched "found" (JVal.b false),
             level := getD matched "level" (JVal.i user_level),
             point := getD matched "point" (JVal.s "Unknown"),
             explanation := getD matched "explanation" (JVal.s ""),
             add_point := getD additional "point" (JVal.s ""),
             add_exp := getD additional "explanation" (JVal.s "") }

/-- Step 3 fence cleanup of `analyze_grammar_point`:
`cleaned = raw.strip()`; drop a leading 7-character `` ```json `` if
present; drop a trailing 3-character `` ``` `` if present. -/
def stripFences (raw : List Char) : List Char :=
  let cleaned := trimChars raw
  let cleaned :=
    if "```json".toList.isPrefixOf cleaned then cleaned.drop 7 else cleaned
  if "```".toList.isSuffixOf cleaned then cleaned.take (cleaned.length - 3)
  else cleaned

/-- The fixed text of the parse-failure return: the f-string
`"Error: Could not parse analysis results. Raw output:"`, a newline, and
the raw backend text. -/
def errHeaderChars : List Char :=
  "Error: Could not parse analysis results. Raw output:\n".toList

/-- Steps 3–4 of `analyze_grammar_point`: strip fences, decode as JSON
(`decode` models `json.loads` returning a top-level object, `none` models
`json.JSONDecodeError`), returning — not raising — the error string
carrying the raw backend text on decode failure, and the extracted fields
otherwise. -/
def parse_generation_response
    (decode : List Char → Option (List (String × JVal)))
    (raw : List Char) (user_level : Int) :
    Except (List Char) (Option Extracted) :=
  match decode (stripFences raw) with
  | none => Except.error (errHeaderChars ++ raw)
  | some data => Except.ok (extractFields data user_level)

/-- A generation-backend response that follows the documented §6 contract
exactly: `english_translation_of_sentence`, `matched_grammar.found`,
`matched_grammar.level`, `matched_grammar.grammar_point_cn`,
`matched_grammar.explanation_in_english`, `additional_info.point`,
`additional_info.explanation`. -/
def contractResp : List (String × JVal) :=
  [("english_translation_of_sentence", JVal.s "I am a student."),
   ("matched_grammar", JVal.o
     [("found", JVal.b true), ("level", JVal.i 1),
      ("grammar_point_cn", JVal.s "是"),
      ("explanation_in_english",
        JVal.s "The copula links the subject and the noun.")]),
   ("additional_info", JVal.o
     [("point", JVal.s "主語"),
      ("explanation", JVal.s "Subjects are often dropped.")])]

/-! ## Theorems -/

/-- C5: for every input segment text and every generation-backend output, if
the cleaned corrected text's length differs from the original text's length
by more than 50% of the original length, `correct_transcript` discards the
correction and returns the original text unchanged. -/
theorem c5_anomaly_rollback (text prev_text next_text resp : List Char)
    (h : text.length < 2 * natDist (cleanResp resp).length text.length) :
    (correct_transcript text prev_text next_text (some resp)).1 = text := by
  unfold correct_transcript
  by_cases hb : isBlank text = true
  · simp [hb]
  · by_cases hg : 0 < countNonSpace text ∧ 10 * countChinese text < countNonSpace text
    · simp [hb, hg]
    · simp [hb, hg, h]

/-- C5 witness: a 20-character input with a 5-character backend output yields
the original 20-character input. -/
theorem c5_anomaly_rollback_witness :
    ("我是學生我是學生我是學生我是學生我是學生".toList.length < 2 *
        natDist (cleanResp "我是學生我".toList).length
          "我是學生我是學生我是學生我是學生我是學生".toList.length) ∧
      (correct_transcript "我是學生我是學生我是學生我是學生我是學生".toList
          "前句".toList "後句".toList (some "我是學生我".toList)).1 =
        "我是學生我是學生我是學生我是學生我是學生".toList :=
  ⟨by decide,
   c5_anomaly_rollback _ _ _ _ (by decide)⟩

/-- C9: for every non-blank input text in which fewer than 10% of the
non-whitespace characters are CJK ideographs (U+4E00–U+9FFF),
`correct_transcript` returns the input unchanged and the generation-backend
branch is not reached (the result does not depend on the backend, and the
call flag is `false`). -/
theorem c9_script_ratio_gate (text prev_text next_text : List Char)
    (backend : Option (List Char))
    (hnb : isBlank text = false)
    (hratio : 10 * countChinese text < countNonSpace text) :
    correct_transcript text prev_text next_text backend = (text, false) := by
  have htot : 0 < countNonSpace text := by
    obtain ⟨c, hc, hw⟩ := List.all_eq_false.mp hnb
    have hmem : c ∈ text.filter (fun c => !c.isWhitespace) :=
      List.mem_filter.mpr ⟨hc, by simp [hw]⟩
    have hne : text.filter (fun c => !c.isWhitespace) ≠ [] := by
      intro hnil
      rw [hnil] at hmem
      exact absurd hmem (List.not_mem_nil c)
    exact List.length_pos.mpr hne
  unfold correct_transcript
  simp only [hnb, Bool.false_eq_true, if_false]
  rw [if_pos ⟨htot, hratio⟩]

/-- C9 witness: `"Hello world"` (0% target-script characters) is returned
unchanged with no backend call, whatever the backend would have answered. -/
theorem c9_script_ratio_gate_witness :
    correct_transcript "Hello world".toList "p".toList "n".toList
        (some "junk".toList) = ("Hello world".toList, false) :=
  c9_script_ratio_gate _ _ _ _ (by decide) (by decide)

/-- If the tier alternation matches, the input starts with that tier. -/
theorem matchTier_sound {l r : List Char} (h : matchTier l = some r) :
    ∃ tier : List Char,
      (tier = "基礎".toList ∨ tier = "進階".toList) ∧ l = tier ++ r := by
  unfold matchTier at h
  split at h
  · exact ⟨"基礎".toList, Or.inl rfl, by simp_all⟩
  · exact ⟨"進階".toList, Or.inr rfl, by simp_all⟩
  · cases h

/-- Soundness of the head matcher: a successful match at the head of `l`
exhibits a marker instance that is a prefix of `l` with the matched value. -/
theorem matchMarkAt_sound {l : List Char} {n : Nat}
    (h : matchMarkAt l = some n) :
    ∃ m post : List Char, l = m ++ post ∧ IsMark m n := by
  unfold matchMarkAt at h
  cases htier : matchTier l with
  | none => rw [htier] at h; cases h
  | some r1 =>
    rw [htier] at h
    dsimp only at h
    obtain ⟨tier, htor, hl⟩ := matchTier_sound htier
    by_cases hws : r1.takeWhile Char.isWhitespace = []
    · rw [if_pos hws] at h; cases h
    · rw [if_neg hws] at h
      split at h
      case _ r3 heq =>
        by_cases hds : r3.takeWhile Char.isDigit = []
        · rw [if_pos hds] at h; cases h
        · rw [if_neg hds] at h
          have e1 : r1 = r1.takeWhile Char.isWhitespace ++ ('第' :: r3) := by
            conv_lhs => rw [← List.takeWhile_append_dropWhile
              (p := Char.isWhitespace) (l := r1)]
            rw [heq]
          split at h
          case _ t heq2 =>
            have e2 : r3 = r3.takeWhile Char.isDigit ++ ('*' :: '級' :: t) := by
              conv_lhs => rw [← List.takeWhile_append_dropWhile
                (p := Char.isDigit) (l := r3)]
              rw [heq2]
            simp only [Option.some.injEq] at h
            refine ⟨tier ++ r1.takeWhile Char.isWhitespace ++
              '第' :: (r3.takeWhile Char.isDigit ++ ['*'] ++ ['級']), t, ?_, ?_⟩
            · conv_lhs => rw [hl, e1, e2]
              simp
            · exact ⟨tier, r1.takeWhile Char.isWhitespace,
                r3.takeWhile Char.isDigit, ['*'], htor, hws,
                fun _ hc => List.mem_takeWhile_imp hc, hds,
                fun _ hc => List.mem_takeWhile_imp hc, Or.inr rfl, rfl, h.symm⟩
          case _ t heq2 =>
            have e2 : r3 = r3.takeWhile Char.isDigit ++ ('級' :: t) := by
              conv_lhs => rw [← List.takeWhile_append_dropWhile
                (p := Char.isDigit) (l := r3)]
              rw [heq2]
            simp only [Option.some.injEq] at h
            refine ⟨tier ++ r1.takeWhile Char.isWhitespace ++
              '第' :: (r3.takeWhile Char.isDigit ++ [] ++ ['級']), t, ?_, ?_⟩
            · conv_lhs => rw [hl, e1, e2]
              simp
            · exact ⟨tier, r1.takeWhile Char.isWhitespace,
                r3.takeWhile Char.isDigit, [], htor, hws,
                fun _ hc => List.mem_takeWhile_imp hc, hds,
                fun _ hc => List.mem_takeWhile_imp hc, Or.inl rfl, rfl, h.symm⟩
          case _ => cases h
      case _ => cases h

/-- Computing `takeWhile` and `dropWhile` on a block of satisfying characters followed by
a failing character. -/
theorem takeWhile_all_append {p : Char → Bool} {ws : List Char}
    (hws : ∀ c ∈ ws, p c = true) {d : Char} (hd : p d = false)
    (rest : List Char) :
    (ws ++ d :: rest).takeWhile p = ws ∧ (ws ++ d :: rest).dropWhile p = d :: rest := by
  induction ws with
  | nil => simp [List.takeWhile_cons, List.dropWhile_cons, hd]
  | cons w ws ih =>
    have hw : p w = true := hws w (List.mem_cons_self w ws)
    have ih' := ih (fun c hc => hws c (List.mem_cons_of_mem w hc))
    simp [List.takeWhile_cons, List.dropWhile_cons, hw, ih'.1, ih'.2]

/-- Evaluation of the matcher after the tier has been consumed. -/
theorem markTail_eval {ws ds rest4 t : List Char}
    (hws : ws ≠ []) (hwsAll : ∀ c ∈ ws, c.isWhitespace = true)
    (hds : ds ≠ []) (hdsAll : ∀ c ∈ ds, c.isDigit = true)
    (ht : rest4 = '*' :: '級' :: t ∨ rest4 = '級' :: t) :
    ∀ l, matchTier l = some (ws ++ '第' :: (ds ++ rest4)) →
      matchMarkAt l = some (digitsToNat ds) := by
  intro l hTier
  have hW := takeWhile_all_append (p := Char.isWhitespace) hwsAll
    (d := '第') (by decide) (ds ++ rest4)
  unfold matchMarkAt
  rw [hTier]
  dsimp only
  rw [hW.1, if_neg hws, hW.2]
  split
  case _ r3 heq =>
    obtain rfl : ds ++ rest4 = r3 := by injection heq
    rcases ht with h4 | h4 <;> subst h4
    · have hD := takeWhile_all_append (p := Char.isDigit) hdsAll
        (d := '*') (by decide) ('級' :: t)
      rw [hD.1, if_neg hds, hD.2]
      split
      case _ t' heq2 => rfl
      case _ t' heq2 => simp at heq2
      case _ hne1 hne2 => exact ((hne1 t rfl)).elim
    · have hD := takeWhile_all_append (p := Char.isDigit) hdsAll
        (d := '級') (by decide) t
      rw [hD.1, if_neg hds, hD.2]
      split
      case _ t' heq2 => simp at heq2
      case _ t' heq2 => rfl
      case _ hne1 hne2 => exact ((hne2 t rfl)).elim
  case _ hne =>
    exact ((hne (ds ++ rest4) rfl)).elim

/-- Completeness of the head matcher: a marker instance at the head always
matches, with its own captured value. -/
theorem matchMarkAt_of_isMark {m : List Char} {n : Nat} (hm : IsMark m n)
    (post : List Char) : matchMarkAt (m ++ post) = some n := by
  obtain ⟨tier, ws, ds, star, htor, hws, hwsAll, hds, hdsAll, hstar, hmEq, hn⟩ := hm
  subst hmEq hn
  have harg : (tier ++ ws ++ '第' :: (ds ++ star ++ ['級'])) ++ post =
      tier ++ (ws ++ '第' :: (ds ++ (star ++ '級' :: post))) := by
    simp
  rw [harg]
  have ht : star ++ '級' :: post = '*' :: '級' :: post ∨
      star ++ '級' :: post = '級' :: post := by
    rcases hstar with h | h <;> subst h
    · exact Or.inr rfl
    · exact Or.inl rfl
  rcases htor with htier | htier <;> subst htier
  · exact markTail_eval hws hwsAll hds hdsAll ht _ rfl
  · exact markTail_eval hws hwsAll hds hdsAll ht _ rfl

/-- Soundness of the scan: a found level comes from a marker contained in
the input. -/
theorem findLevelAux_sound {l : List Char} {n : Nat}
    (h : findLevelAux l = some n) : ContainsMarkVal l n := by
  induction l with
  | nil => cases h
  | cons c rest ih =>
    rw [findLevelAux] at h
    cases hm : matchMarkAt (c :: rest) with
    | some k =>
      rw [hm] at h
      simp only [Option.some.injEq] at h
      subst h
      obtain ⟨m, post, heq, hmark⟩ := matchMarkAt_sound hm
      exact ⟨[], m, post, by simpa using heq, hmark⟩
    | none =>
      rw [hm] at h
      obtain ⟨pre, m, post, heq, hmark⟩ := ih h
      exact ⟨c :: pre, m, post, by simp [heq], hmark⟩

/-- Completeness of the scan: if the input contains a marker, the scan
finds one. -/
theorem findLevelAux_isSome_of_contains {l : List Char} {n : Nat}
    (h : ContainsMarkVal l n) : ∃ k, findLevelAux l = some k := by
  obtain ⟨pre, m, post, heq, hmark⟩ := h
  induction pre generalizing l with
  | nil =>
    have hm := matchMarkAt_of_isMark hmark post
    have hne : m ++ post ≠ [] := by
      obtain ⟨tier, ws, ds, star, htor, -, -, -, -, -, hmEq, -⟩ := hmark
      rcases htor with ht | ht <;> subst ht <;> subst hmEq <;> simp
    simp only [List.nil_append] at heq
    subst heq
    cases hl : m ++ post with
    | nil => exact absurd hl hne
    | cons c rest =>
      rw [hl] at hm
      exact ⟨n, by simp only [findLevelAux, List.append_eq, hm]⟩
  | cons c pre ih =>
    subst heq
    cases hm : matchMarkAt (c :: (pre ++ m ++ post)) with
    | some k => exact ⟨k, by simp only [findLevelAux, List.append_eq, hm]⟩
    | none =>
      obtain ⟨k, hk⟩ := ih rfl
      refine ⟨k, ?_⟩
      simp only [findLevelAux, List.append_eq, hm]
      exact hk

/-- C8: whenever the parser keeps a document for a chunk, the document's
level is `some N` for `N` the value captured by a level marker contained in
the (trimmed) chunk — a substring matching `(基礎|進階)\s+第(\d+)\*?級` —
and the document has no level exactly when the chunk contains no such
marker; and the corpus block `"基礎 第1級\n我是學生。"` between two `//`
separators yields exactly one document with text
`"基礎 第1級 我是學生。"` and level 1. -/
theorem c8_level_extraction :
    (∀ (chunk : List Char) (d : Doc), processChunk chunk = some d →
      ((∃ k : Nat, d.level = some (k : Int) ∧
          ContainsMarkVal (trimChars chunk) k) ∨
        (d.level = none ∧ ∀ n : Nat, ¬ ContainsMarkVal (trimChars chunk) n))) ∧
    parseCorpusContent "//基礎 第1級\n我是學生。//".toList =
      [⟨"基礎 第1級 我是學生。".toList, some 1⟩] := by
  constructor
  · intro chunk d h
    unfold processChunk at h
    by_cases h1 : trimChars chunk = []
    · rw [if_pos h1] at h; cases h
    · rw [if_neg h1] at h
      dsimp only at h
      by_cases h2 : trimChars (collapseNL (trimChars chunk)) = []
      · rw [if_pos h2] at h; cases h
      · rw [if_neg h2] at h
        simp only [Option.some.injEq] at h
        have hlev : d.level = (findLevel (trimChars chunk)).map Int.ofNat := by
          rw [← h]
        cases hf : findLevel (trimChars chunk) with
        | some k =>
          left
          refine ⟨k, ?_, findLevelAux_sound hf⟩
          rw [hlev, hf]
          rfl
        | none =>
          right
          refine ⟨by rw [hlev, hf]; rfl, ?_⟩
          intro n hc
          obtain ⟨kk, hkk⟩ := findLevelAux_isSome_of_contains hc
          rw [show findLevelAux (trimChars chunk) = findLevel (trimChars chunk) from rfl,
            hf] at hkk
          cases hkk
  · decide

/-- C8 witness: the single chunk `"基礎 第1級\n我是學生。"` is kept as a
document whose level 1 comes from the marker `基礎 第1級` contained in the
chunk. -/
theorem c8_level_extraction_witness :
    (∃ k : Nat, (Doc.mk "基礎 第1級 我是學生。".toList (some 1)).level =
        some (k : Int) ∧
        ContainsMarkVal (trimChars "基礎 第1級\n我是學生。".toList) k) ∨
      ((Doc.mk "基礎 第1級 我是學生。".toList (some 1)).level = none ∧
        ∀ n : Nat,
          ¬ ContainsMarkVal (trimChars "基礎 第1級\n我是學生。".toList) n) :=
  c8_level_extraction.1 _ _ (by decide)

/-- Every scored candidate carries the distance of its own document. -/
theorem faissSearchScored_snd (dist : Doc → Int) (idx : List Doc) (n : Nat) :
    ∀ e ∈ faissSearchScored dist idx n, e.2 = dist e.1 := by
  intro e he
  have h1 : e ∈ (idx.map (fun d => (d, dist d))).insertionSort
      (fun a b => a.2 ≤ b.2) :=
    (List.take_sublist _ _).subset he
  have h2 : e ∈ idx.map (fun d => (d, dist d)) :=
    (List.perm_insertionSort _ _).subset h1
  obtain ⟨d, _, rfl⟩ := List.mem_map.mp h2
  rfl

/-- Every scored candidate's document is in the index. -/
theorem faissSearchScored_mem (dist : Doc → Int) (idx : List Doc) (n : Nat) :
    ∀ e ∈ faissSearchScored dist idx n, e.1 ∈ idx := by
  intro e he
  have h1 : e ∈ (idx.map (fun d => (d, dist d))).insertionSort
      (fun a b => a.2 ≤ b.2) :=
    (List.take_sublist _ _).subset he
  have h2 : e ∈ idx.map (fun d => (d, dist d)) :=
    (List.perm_insertionSort _ _).subset h1
  obtain ⟨d, hd, rfl⟩ := List.mem_map.mp h2
  exact hd

/-- The scored candidates come back in ascending distance order. -/
theorem faissSearchScored_sorted (dist : Doc → Int) (idx : List Doc) (n : Nat) :
    (faissSearchScored dist idx n).Pairwise (fun a b => a.2 ≤ b.2) :=
  List.Pairwise.sublist (List.take_sublist _ _)
    (List.sorted_insertionSort (fun (a b : Doc × Int) => a.2 ≤ b.2) _)

/-- C2 (amended): `retrieve_with_filter` returns only documents whose level
equals the filter level (documents with no level are excluded), at most
`k = 5` of them, ordered by ascending distance (non-increasing similarity)
and drawn from the index; but the filter is applied only to the
`fetch_k = 20` nearest candidates selected before filtering, so it can
return fewer than `min(k, number of level-L entries)` documents (see the
counterexample). -/
theorem c2_retrieval_filter_props (dist : Doc → Int) (idx : List Doc)
    (level : Int) :
    (∀ d ∈ retrieve_with_filter dist idx level, d.level = some level) ∧
    (retrieve_with_filter dist idx level).length ≤ 5 ∧
    (retrieve_with_filter dist idx level).Pairwise
      (fun a b => dist a ≤ dist b) ∧
    (∀ d ∈ retrieve_with_filter dist idx level, d ∈ idx) := by
  have hmemS := faissSearchScored_mem dist idx 20
  have hsnd := faissSearchScored_snd dist idx 20
  have hsorted := faissSearchScored_sorted dist idx 20
  refine ⟨?_, ?_, ?_, ?_⟩
  · intro d hd
    unfold retrieve_with_filter similarity_search at hd
    obtain ⟨e, he, rfl⟩ := List.mem_map.mp hd
    have he2 : e ∈ (faissSearchScored dist idx 20).filter
        (fun e => decide (e.1.level = some level)) :=
      (List.take_sublist _ _).subset he
    have hp := (List.mem_filter.mp he2).2
    simpa using hp
  · unfold retrieve_with_filter similarity_search
    rw [List.length_map]
    exact List.length_take_le _ _
  · unfold retrieve_with_filter similarity_search
    rw [List.pairwise_map]
    refine List.Pairwise.imp_of_mem ?_
      (List.Pairwise.sublist (List.take_sublist _ _)
        (List.Pairwise.filter _ hsorted))
    intro a b ha hb hle
    have ha' : a ∈ faissSearchScored dist idx 20 :=
      (List.mem_filter.mp ((List.take_sublist _ _).subset ha)).1
    have hb' : b ∈ faissSearchScored dist idx 20 :=
      (List.mem_filter.mp ((List.take_sublist _ _).subset hb)).1
    rw [hsnd a ha', hsnd b hb'] at hle
    exact hle
  · intro d hd
    unfold retrieve_with_filter similarity_search at hd
    obtain ⟨e, he, rfl⟩ := List.mem_map.mp hd
    exact hmemS e (List.mem_filter.mp ((List.take_sublist _ _).subset he)).1

/-- C2 counterexample: the index `exIdx` contains one level-1 document, yet
`retrieve_with_filter` at level 1 returns no documents at all — fewer than
`min(k, number of level-1 entries) = 1` — because the 20 candidates fetched
before filtering are all level 2.  This refutes the claim that `k` bounds
the result count only after filtering. -/
theorem c2_fetch_before_filter_refuted :
    retrieve_with_filter exDist exIdx 1 = [] ∧
      (exIdx.filter (fun d => decide (d.level = some 1))).length = 1 := by
  constructor
  · decide
  · decide

/-- The batch loop started on a built store appends the remaining batches
in order. -/
theorem buildLoop_some (bl : List (List Doc)) (acc : List Doc) :
    buildLoop (some acc) bl = some (acc ++ bl.flatten) := by
  induction bl generalizing acc with
  | nil => simp [buildLoop]
  | cons b rest ih =>
    rw [buildLoop, ih]
    simp

/-- Batching loses and duplicates nothing: the concatenation of the slices
is the original list. -/
theorem chunked_flatten (bs : Nat) (hbs : 0 < bs) (l : List Doc) :
    (chunked bs l).flatten = l := by
  induction l using chunked.induct bs with
  | case1 => simp [chunked]
  | case2 d rest ih =>
    rw [chunked]
    rw [List.flatten_cons, ih]
    have hdrop : rest.drop (bs - 1) = (d :: rest).drop bs := by
      obtain ⟨bs', rfl⟩ := Nat.exists_eq_add_of_lt hbs
      simp [List.drop_succ_cons]
    rw [hdrop, List.take_append_drop]

/-- C7: for every document list and batch size ≥ 1 (the source uses 10), the
batched build of `build_verbose` (first batch via `FAISS.from_documents`,
remaining batches via `add_documents`) produces exactly the index content of
the single unbatched `FAISS.from_documents` build of `build_vector_store`:
the same documents, each indexed exactly once (equal multiplicity for every
document), and identical search results for any fixed query distance, `k`
and filter. -/
theorem c7_batched_build_equivalence (bs : Nat) (docs : List Doc)
    (hbs : 0 < bs) :
    build_verbose bs docs = fromDocumentsOpt docs ∧
    (∀ d : Doc,
      (build_verbose bs docs).elim 0 (fun l => l.count d) = docs.count d) ∧
    (∀ (dist : Doc → Int) (k : Nat) (flt : Option Int),
      (build_verbose bs docs).map (fun idx => similarity_search dist idx k flt) =
        (fromDocumentsOpt docs).map
          (fun idx => similarity_search dist idx k flt)) := by
  have h1 : build_verbose bs docs = fromDocumentsOpt docs := by
    cases docs with
    | nil => simp [build_verbose, chunked, buildLoop, fromDocumentsOpt]
    | cons d rest =>
      unfold build_verbose
      rw [chunked, buildLoop, buildLoop_some, chunked_flatten bs hbs]
      have hdrop : rest.drop (bs - 1) = (d :: rest).drop bs := by
        obtain ⟨bs', rfl⟩ := Nat.exists_eq_add_of_lt hbs
        simp [List.drop_succ_cons]
      rw [hdrop, List.take_append_drop]
      simp [fromDocumentsOpt]
  refine ⟨h1, ?_, ?_⟩
  · intro d
    rw [h1]
    cases docs with
    | nil => simp [fromDocumentsOpt]
    | cons x xs => simp [fromDocumentsOpt]
  · intro dist k flt
    rw [h1]

/-- C7 witness: with the source's batch size 10 and a concrete document
list, the batched and unbatched builds agree. -/
theorem c7_batched_build_equivalence_witness :
    build_verbose 10 exDocsSmall = fromDocumentsOpt exDocsSmall ∧
    (∀ d : Doc,
      (build_verbose 10 exDocsSmall).elim 0 (fun l => l.count d) =
        exDocsSmall.count d) ∧
    (∀ (dist : Doc → Int) (k : Nat) (flt : Option Int),
      (build_verbose 10 exDocsSmall).map
          (fun idx => similarity_search dist idx k flt) =
        (fromDocumentsOpt exDocsSmall).map
          (fun idx => similarity_search dist idx k flt)) :=
  c7_batched_build_equivalence 10 exDocsSmall (by decide)

/-- C6: `build_vector_store` fails closed and falls back: (a) when the
persisted index exists but loading raises, the error is swallowed and a
full rebuild from the source corpus is returned; (b) when the corpus file
is missing, the build propagates `FileNotFoundError`; (c) when the corpus
yields zero documents, the build propagates `ValueError` — never an empty
index. -/
theorem c6_build_fail_closed (env : BuildEnv) (content : List Char) :
    (env.indexExists = true → env.loadResult = none →
      env.corpus = some content → parseCorpusContent content ≠ [] →
      build_vector_store env =
        Except.ok ⟨parseCorpusContent content, true, env.saveOk⟩) ∧
    ((env.indexExists = false ∨ env.loadResult = none) → env.corpus = none →
      build_vector_store env = Except.error BuildErr.fileNotFound) ∧
    ((env.indexExists = false ∨ env.loadResult = none) →
      env.corpus = some content → parseCorpusContent content = [] →
      build_vector_store env = Except.error BuildErr.noDocuments) := by
  refine ⟨?_, ?_, ?_⟩
  · intro hidx hload hc hne
    unfold build_vector_store
    rw [hidx, if_pos rfl, hload]
    unfold buildFresh load_and_process_documents
    rw [hc]
    simp only [if_neg hne]
  · intro hor hc
    have hfresh : buildFresh env = Except.error BuildErr.fileNotFound := by
      unfold buildFresh load_and_process_documents
      rw [hc]
    unfold build_vector_store
    rcases hor with h | h
    · rw [h]
      simpa using hfresh
    · cases hidx : env.indexExists
      · simpa using hfresh
      · rw [h]
        simpa using hfresh
  · intro hor hc hnil
    have hfresh : buildFresh env = Except.error BuildErr.noDocuments := by
      unfold buildFresh load_and_process_documents
      rw [hc]
      simp [hnil]
    unfold build_vector_store
    rcases hor with h | h
    · rw [h]
      simpa using hfresh
    · cases hidx : env.indexExists
      · simpa using hfresh
      · rw [h]
        simpa using hfresh

/-- C6 witness: a corrupt persisted index falls back to a full rebuild; a
missing corpus is a `FileNotFoundError`; an empty corpus is a
`ValueError`. -/
theorem c6_build_fail_closed_witness :
    build_vector_store ⟨true, none, some exCorpus, true⟩ =
        Except.ok ⟨parseCorpusContent exCorpus, true, true⟩ ∧
      build_vector_store ⟨false, none, none, true⟩ =
        Except.error BuildErr.fileNotFound ∧
      build_vector_store ⟨false, none, some "".toList, true⟩ =
        Except.error BuildErr.noDocuments :=
  ⟨(c6_build_fail_closed ⟨true, none, some exCorpus, true⟩ exCorpus).1
      rfl rfl rfl (by decide),
   (c6_build_fail_closed ⟨false, none, none, true⟩ exCorpus).2.1
      (Or.inl rfl) rfl,
   (c6_build_fail_closed ⟨false, none, some "".toList, true⟩ "".toList).2.2
      (Or.inl rfl) rfl (by decide)⟩

/-- C10: a failure while persisting a freshly built index is swallowed —
when the save step fails (`saveOk = false`) and a fresh build happens, the
caller still receives the fully built in-memory index with
`saved = false`, i.e. a working index that was never successfully
persisted. -/
theorem c10_save_failure_swallowed (env : BuildEnv) (content : List Char)
    (hidx : env.indexExists = false) (hc : env.corpus = some content)
    (hne : parseCorpusContent content ≠ []) (hsave : env.saveOk = false) :
    build_vector_store env =
      Except.ok ⟨parseCorpusContent content, true, false⟩ := by
  unfold build_vector_store
  rw [hidx]
  unfold buildFresh load_and_process_documents
  rw [hc]
  simp only [if_neg hne, hsave]
  rfl

/-- C10 witness: concrete build with a failing save still returns the
built index, unsaved. -/
theorem c10_save_failure_swallowed_witness :
    build_vector_store ⟨false, none, some exCorpus, false⟩ =
      Except.ok ⟨parseCorpusContent exCorpus, true, false⟩ :=
  c10_save_failure_swallowed ⟨false, none, some exCorpus, false⟩ exCorpus
    rfl rfl (by decide) rfl

/-- Once the slot is filled, every later call returns the cached chain
with no construction. -/
theorem runCalls_cached (c : RagChain) (ps : List (List Char)) :
    runCalls (some c) ps = ps.map (fun _ => (c, false)) := by
  induction ps with
  | nil => rfl
  | cons p rest ih => simp [runCalls, get_rag_chain, ih]

/-- C4: starting from the empty process-wide slot, the first call to
`get_rag_chain` performs the construction (flag `true`) and caches the
handle built from its own path; every subsequent call — whatever
`grammar_file_path` it passes, same or different — returns the identical
cached handle, still tied to the first path, with no reconstruction (flag
`false`): the cache is a single slot, not keyed by path. -/
theorem c4_chain_cache_idempotent (p₁ : List Char) (ps : List (List Char)) :
    runCalls none (p₁ :: ps) =
      (⟨p₁⟩, true) :: ps.map (fun _ => ((⟨p₁⟩ : RagChain), false)) := by
  simp [runCalls, get_rag_chain, runCalls_cached]

/-- C3: for every backend text, `analyze_grammar_point` first strips the
`` ```json ``/`` ``` `` fences, then parses; if the parse fails it returns
(not raises) the distinguishable error result, whose text contains the
raw backend output verbatim. -/
theorem c3_parse_failure_returns_raw
    (decode : List Char → Option (List (String × JVal)))
    (raw : List Char) (user_level : Int)
    (h : decode (stripFences raw) = none) :
    parse_generation_response decode raw user_level =
      Except.error (errHeaderChars ++ raw) ∧
    ∃ pre post, errHeaderChars ++ raw = pre ++ raw ++ post := by
  constructor
  · unfold parse_generation_response
    rw [h]
  · exact ⟨errHeaderChars, [], by simp⟩

/-- C3 witness: backend output `"not json"` (which every JSON decoder
rejects) yields the error result containing `"not json"` verbatim. -/
theorem c3_parse_failure_returns_raw_witness :
    parse_generation_response (fun _ => none) "not json".toList 1 =
      Except.error (errHeaderChars ++ "not json".toList) ∧
    ∃ pre post,
      errHeaderChars ++ "not json".toList = pre ++ "not json".toList ++ post :=
  c3_parse_failure_returns_raw (fun _ => none) "not json".toList 1 rfl

/-- C1 is refuted by the code: the extraction step reads the keys
`translation`, `point` and `explanation`, not the contract keys
`english_translation_of_sentence`, `grammar_point_cn` and
`explanation_in_english` that the prompt in the very same function
mandates.  On a fully contract-conformant response the extracted
translation is the neutral default `""`, the grammar name is `"Unknown"`
and the explanation is `""` — the provided values are silently lost (while
`found`, `level` and the `additional_info` keys, whose names coincide, do
come through).  Missing-key defaulting itself works as claimed: the result
has no missing field. -/
theorem c1_contract_keys_lost :
    extractFields contractResp 1 =
      some { translation := JVal.s "", found := JVal.b true,
             level := JVal.i 1, point := JVal.s "Unknown",
             explanation := JVal.s "",
             add_point := JVal.s "主語",
             add_exp := JVal.s "Subjects are often dropped." } := rfl
